import Mathlib

/-!
# Verification of the Media-Processor-Microservice exposure pipeline

Shallow embedding of the media-processing code in
`src/Image/Image.py`, `src/video_enhancement/Video.py` and
`src/Video_stitch/Video.py`.

Frames themselves, colour-space conversions, CLAHE filtering, resizing,
blending and text rendering are performed by the external OpenCV
collaborator; they are modelled as parameters (`VideoOps`, `ImageOps`,
`StitchOps`, `TextSizes`) whose results may fail (`Except String`),
mirroring the fact that any cv2 call may raise.  Everything the
repository's own code computes — threshold routing, the temporal
smoother, the watermark layout arithmetic, the frame loops and the
job-boundary success/message contract — is translated directly from the
Python source.  Machine floats are modelled as `ℚ`.
-/

/-- The three brightness-correction strategies of the pipeline
(`_enhance_dark_frame` / `_reduce_brightness` / `_optimize_frame`). -/
inductive Strategy where
  | dark : Strategy
  | bright : Strategy
  | optimize : Strategy
deriving DecidableEq, Repr

/-- The `if mean_brightness < LOW … elif mean_brightness > HIGH … else …`
routing shared by `ImageProcessor.adjust_brightness` (low 80, high 130)
and `VideoProcessor.process_video` (low 80, high 200). -/
def selectStrategy (low high mb : ℚ) : Strategy :=
  if mb < low then Strategy.dark
  else if mb > high then Strategy.bright
  else Strategy.optimize

/-- `VideoProcessor.SMOOTHING_WINDOW`. -/
def SMOOTHING_WINDOW : ℕ := 5

/-- `np.mean` over a list of rationals (0 on the empty list). -/
def listMean (l : List ℚ) : ℚ := l.sum / (l.length : ℚ)

/-- The state update of `VideoProcessor._get_smoothed_adjustment`:
`self.previous_adjustments.append(current_adjustment)` followed by
`pop(0)` when the length exceeds `SMOOTHING_WINDOW`. -/
def smoother_step (prev : List ℚ) (current : ℚ) : List ℚ :=
  let appended := prev ++ [current]
  if SMOOTHING_WINDOW < appended.length then appended.tail else appended

/-- `VideoProcessor._get_smoothed_adjustment`: returns the mean of the
updated window together with the updated window
(`self.previous_adjustments` after the call). -/
def get_smoothed_adjustment (prev : List ℚ) (current : ℚ) : ℚ × List ℚ :=
  let w := smoother_step prev current
  (listMean w, w)

/-- A sequence of `_get_smoothed_adjustment` calls starting from a given
window state; returns the list of returned means and the final state. -/
def run_smoother : List ℚ → List ℚ → List ℚ × List ℚ
  | [], st => ([], st)
  | c :: cs, st =>
    let r := get_smoothed_adjustment st c
    let rest := run_smoother cs r.2
    (r.1 :: rest.1, rest.2)

/-- `VideoProcessor.TARGET_BRIGHTNESS / current_brightness` —
the bright-strategy factor of `VideoProcessor._reduce_brightness`
(`current_brightness` is the frame's LAB mean brightness). -/
def video_reduction_factor (current_brightness : ℚ) : ℚ :=
  127 / current_brightness

/-- `ImageProcessor.TARGET_BRIGHTNESS / current_brightness` —
the bright-strategy factor of `ImageProcessor._reduce_brightness`
(`current_brightness` is the mean of the HSV value channel, recomputed
inside the method). -/
def image_reduction_factor (current_brightness : ℚ) : ℚ :=
  127 / current_brightness

/-- Modelled from the spec: the guarded factor the spec demands
("floor denominator at 1"); the source has no such guard.  Kept only to
compare against `image_reduction_factor` / `video_reduction_factor`. -/
def spec_guarded_factor (current_brightness : ℚ) : ℚ :=
  127 / max current_brightness 1

/-- C4: the router is a total function on `mean_brightness`, so each frame
gets exactly one of the three mutually exclusive strategies; the iff
characterisations give the selection rule for both threshold sets, and the
three synthetic examples of the spec evaluate as claimed. -/
theorem strategy_selection_thresholds :
    (∀ mb : ℚ,
      (selectStrategy 80 200 mb = Strategy.dark ↔ mb < 80) ∧
      (selectStrategy 80 200 mb = Strategy.bright ↔ ¬ mb < 80 ∧ 200 < mb) ∧
      (selectStrategy 80 200 mb = Strategy.optimize ↔ ¬ mb < 80 ∧ ¬ 200 < mb) ∧
      (selectStrategy 80 130 mb = Strategy.dark ↔ mb < 80) ∧
      (selectStrategy 80 130 mb = Strategy.bright ↔ ¬ mb < 80 ∧ 130 < mb) ∧
      (selectStrategy 80 130 mb = Strategy.optimize ↔ ¬ mb < 80 ∧ ¬ 130 < mb)) ∧
    selectStrategy 80 200 50 = Strategy.dark ∧
    selectStrategy 80 200 220 = Strategy.bright ∧
    selectStrategy 80 200 127 = Strategy.optimize ∧
    selectStrategy 80 130 127 = Strategy.optimize := by
  refine ⟨fun mb => ?_, by decide, by decide, by decide, by decide⟩
  unfold selectStrategy
  split_ifs with h1 h2 h3 <;> simp_all [gt_iff_lt]

lemma smoother_step_length (prev : List ℚ) (c : ℚ)
    (h : prev.length ≤ SMOOTHING_WINDOW) :
    (smoother_step prev c).length ≤ SMOOTHING_WINDOW := by
  simp only [smoother_step]
  split_ifs with h5 <;>
    simp only [List.length_tail, List.length_append, List.length_singleton,
      SMOOTHING_WINDOW] at * <;> omega

lemma smoother_step_ne_nil (prev : List ℚ) (c : ℚ) :
    smoother_step prev c ≠ [] := by
  simp only [smoother_step]
  split_ifs with h5
  · intro hnil
    have hlen := congrArg List.length hnil
    simp only [List.length_tail, List.length_append, List.length_singleton,
      List.length_nil, SMOOTHING_WINDOW] at hlen h5
    omega
  · simp

lemma run_smoother_length (pre : List ℚ) :
    ∀ st : List ℚ, st.length ≤ SMOOTHING_WINDOW →
      (run_smoother pre st).2.length ≤ SMOOTHING_WINDOW := by
  induction pre with
  | nil => intro st h; simpa [run_smoother] using h
  | cons c cs ih =>
    intro st h
    simp only [run_smoother]
    exact ih _ (by simpa [get_smoothed_adjustment] using smoother_step_length st c h)

lemma listMean_le_of_forall_le (l : List ℚ) (M : ℚ) (hne : l ≠ [])
    (h : ∀ x ∈ l, x ≤ M) : listMean l ≤ M := by
  have hlen : 0 < (l.length : ℚ) := by exact_mod_cast List.length_pos.mpr hne
  rw [listMean, div_le_iff₀ hlen]
  have hs : l.sum ≤ l.length • M := List.sum_le_card_nsmul l M h
  calc l.sum ≤ l.length • M := hs
    _ = M * (l.length : ℚ) := by rw [nsmul_eq_mul, mul_comm]

lemma le_listMean_of_forall_le (l : List ℚ) (m : ℚ) (hne : l ≠ [])
    (h : ∀ x ∈ l, m ≤ x) : m ≤ listMean l := by
  have hlen : 0 < (l.length : ℚ) := by exact_mod_cast List.length_pos.mpr hne
  rw [listMean, le_div_iff₀ hlen]
  have hs : l.length • m ≤ l.sum := List.card_nsmul_le_sum l m h
  calc m * (l.length : ℚ) = l.length • m := by rw [nsmul_eq_mul, mul_comm]
    _ ≤ l.sum := hs

/-- C5: each call to `_get_smoothed_adjustment` appends the raw factor,
evicts the oldest entry when the window exceeds its configured size, and
returns the arithmetic mean of the current window; with window 5 and the
seven factors 1,1,1,1,1,2,2 the 6th call returns the mean of
[1,1,1,1,2] = 6/5 and the 7th the mean of [1,1,1,2,2] = 7/5. -/
theorem temporal_smoother_step_change :
    (∀ prev c, get_smoothed_adjustment prev c =
      (listMean (smoother_step prev c), smoother_step prev c)) ∧
    (∀ prev c, smoother_step prev c =
      if SMOOTHING_WINDOW < (prev ++ [c]).length
      then (prev ++ [c]).tail else prev ++ [c]) ∧
    (run_smoother [1, 1, 1, 1, 1, 2, 2] []).1.get? 5 =
      some (listMean [1, 1, 1, 1, 2]) ∧
    (run_smoother [1, 1, 1, 1, 1, 2, 2] []).1.get? 6 =
      some (listMean [1, 1, 1, 2, 2]) ∧
    listMean [1, 1, 1, 1, 2] = 6 / 5 ∧
    listMean [1, 1, 1, 2, 2] = 7 / 5 := by
  refine ⟨fun prev c => rfl, fun prev c => rfl, ?_, ?_, ?_, ?_⟩ <;>
    norm_num [run_smoother, get_smoothed_adjustment, smoother_step, listMean,
      SMOOTHING_WINDOW, List.get?]

/-- C9: the smoothing state never exceeds the configured window length 5:
one `_get_smoothed_adjustment` call preserves the bound, and any sequence
of calls within one job (which starts from the empty state) ends — hence
also passes through — states of length at most 5. -/
theorem smoothing_state_bounded (prev : List ℚ) (c : ℚ) (pre : List ℚ)
    (h : prev.length ≤ SMOOTHING_WINDOW) :
    (get_smoothed_adjustment prev c).2.length ≤ SMOOTHING_WINDOW ∧
    (run_smoother pre []).2.length ≤ SMOOTHING_WINDOW :=
  ⟨smoother_step_length prev c h, run_smoother_length pre [] (by simp)⟩

theorem smoothing_state_bounded_witness :
    (get_smoothed_adjustment [1, 1, 1, 1, 1] 2).2.length ≤ SMOOTHING_WINDOW ∧
    (run_smoother [1, 1, 1, 1, 1, 2, 2] []).2.length ≤ SMOOTHING_WINDOW :=
  smoothing_state_bounded [1, 1, 1, 1, 1] 2 [1, 1, 1, 1, 1, 2, 2] (by decide)

/-- C10: the window after a call is never empty, and the returned smoothed
factor lies between any lower bound and any upper bound of the factors
retained in the window — in particular between their minimum and their
maximum, so the smoothed factor never overshoots the raw factors' range. -/
theorem smoothed_factor_in_window_range (prev : List ℚ) (c m M : ℚ)
    (hm : ∀ x ∈ (get_smoothed_adjustment prev c).2, m ≤ x)
    (hM : ∀ x ∈ (get_smoothed_adjustment prev c).2, x ≤ M) :
    (get_smoothed_adjustment prev c).2 ≠ [] ∧
    m ≤ (get_smoothed_adjustment prev c).1 ∧
    (get_smoothed_adjustment prev c).1 ≤ M := by
  have hne : smoother_step prev c ≠ [] := smoother_step_ne_nil prev c
  exact ⟨hne, le_listMean_of_forall_le _ m hne hm,
    listMean_le_of_forall_le _ M hne hM⟩

theorem smoothed_factor_in_window_range_witness :
    (get_smoothed_adjustment [1, 2] 3).2 ≠ [] ∧
    (1 : ℚ) ≤ (get_smoothed_adjustment [1, 2] 3).1 ∧
    (get_smoothed_adjustment [1, 2] 3).1 ≤ 3 :=
  smoothed_factor_in_window_range [1, 2] 3 1 3 (by decide) (by decide)

/-- The text measurements returned by the external `cv2.getTextSize` for
the three watermark lines of `add_mansio_watermark` (main text,
timestamp line, user line). -/
structure TextSizes where
  mainW : ℤ
  mainH : ℤ
  timeW : ℤ
  timeH : ℤ
  userW : ℤ
  userH : ℤ
deriving DecidableEq, Repr

/-- `padding = 20` in `add_mansio_watermark`. -/
def WM_PADDING : ℤ := 20

/-- `line_spacing = 5` in `add_mansio_watermark`. -/
def WM_LINE_SPACING : ℤ := 5

/-- `total_height = main_height + time_height + user_height + 2 * line_spacing`. -/
def wm_total_height (ts : TextSizes) : ℤ :=
  ts.mainH + ts.timeH + ts.userH + 2 * WM_LINE_SPACING

/-- `max_width = max(main_width, time_width, user_width)`. -/
def wm_max_width (ts : TextSizes) : ℤ :=
  max ts.mainW (max ts.timeW ts.userW)

/-- `x = frame.shape[1] - max_width - 2 * padding`. -/
def wm_x (W : ℤ) (ts : TextSizes) : ℤ :=
  W - wm_max_width ts - 2 * WM_PADDING

/-- `y_bottom = frame.shape[0] - padding`. -/
def wm_y_bottom (H : ℤ) : ℤ := H - WM_PADDING

/-- Top-left corner of the `cv2.rectangle` overlay block:
`(x - padding, y_bottom - total_height - 2 * padding)`. -/
def wm_rect_top_left (W H : ℤ) (ts : TextSizes) : ℤ × ℤ :=
  (wm_x W ts - WM_PADDING, wm_y_bottom H - wm_total_height ts - 2 * WM_PADDING)

/-- Bottom-right corner of the `cv2.rectangle` overlay block:
`(x + max_width + padding, y_bottom + padding)`. -/
def wm_rect_bottom_right (W H : ℤ) (ts : TextSizes) : ℤ × ℤ :=
  (wm_x W ts + wm_max_width ts + WM_PADDING, wm_y_bottom H + WM_PADDING)

/-- C6 counterexample: on a 64×64 frame — even with degenerate zero text
measurements, which minimise the block — the computed overlay block is not
within the frame's pixel bounds: its bottom-right corner's y-coordinate is
64, one past the last pixel row 63, and its top edge is at row −6. -/
theorem watermark_block_exceeds_bounds :
    (wm_rect_bottom_right 64 64 ⟨0, 0, 0, 0, 0, 0⟩).2 = 64 ∧
    ¬ (wm_rect_bottom_right 64 64 ⟨0, 0, 0, 0, 0, 0⟩).2 ≤ 64 - 1 ∧
    (wm_rect_top_left 64 64 ⟨0, 0, 0, 0, 0, 0⟩).2 = -6 ∧
    (wm_rect_top_left 64 64 ⟨0, 0, 0, 0, 0, 0⟩).2 < 0 := by
  refine ⟨by decide, by decide, by decide, by decide⟩

/-- C6 amended: the geometry is recomputed from the frame's width `W` and
height `H` on each call; the block's bottom-right corner is exactly
`(W - 20, H)`: the x-coordinate stays within the pixel columns for every
frame at least 64 wide, but the y-coordinate always equals `H` — one past
the last pixel row — and the block's top edge lies at or above row
`H - 70`, so the block is never entirely within the pixel bounds. -/
theorem watermark_bottom_right_geometry (W H : ℤ) (ts : TextSizes)
    (hW : 64 ≤ W) (hmain : 0 ≤ ts.mainH) (htime : 0 ≤ ts.timeH)
    (huser : 0 ≤ ts.userH) :
    (wm_rect_bottom_right W H ts).1 = W - WM_PADDING ∧
    0 ≤ (wm_rect_bottom_right W H ts).1 ∧
    (wm_rect_bottom_right W H ts).1 ≤ W - 1 ∧
    (wm_rect_bottom_right W H ts).2 = H ∧
    (wm_rect_top_left W H ts).2 ≤ H - 70 := by
  dsimp only [wm_rect_bottom_right, wm_rect_top_left, wm_x, wm_y_bottom,
    wm_total_height, WM_PADDING, WM_LINE_SPACING]
  refine ⟨by ring, by omega, by omega, by ring, by omega⟩

theorem watermark_bottom_right_geometry_witness :
    (wm_rect_bottom_right 1920 1080 ⟨246, 33, 258, 13, 301, 13⟩).1 = 1920 - WM_PADDING ∧
    0 ≤ (wm_rect_bottom_right 1920 1080 ⟨246, 33, 258, 13, 301, 13⟩).1 ∧
    (wm_rect_bottom_right 1920 1080 ⟨246, 33, 258, 13, 301, 13⟩).1 ≤ 1920 - 1 ∧
    (wm_rect_bottom_right 1920 1080 ⟨246, 33, 258, 13, 301, 13⟩).2 = 1080 ∧
    (wm_rect_top_left 1920 1080 ⟨246, 33, 258, 13, 301, 13⟩).2 ≤ 1080 - 70 :=
  watermark_bottom_right_geometry 1920 1080 ⟨246, 33, 258, 13, 301, 13⟩
    (by decide) (by decide) (by decide) (by decide)

/-- Per-frame metrics of `VideoProcessor.analyze_frame`. -/
structure FrameMetrics where
  mean_brightness : ℚ
  contrast : ℚ
  histogram_spread : ℚ
  frame_number : ℕ
deriving DecidableEq, Repr

/-- The external cv2/numpy operations `VideoProcessor` invokes on frames
of type `Frame`; any of them may raise, modelled by `Except String`.
`labStats` is `cvtColor(BGR2LAB)` plus the mean / std / percentile-spread
of the L channel; `enhanceDark` is the CLAHE(clip 3.0) body of
`_enhance_dark_frame`; `toHSV` is the `cvtColor(BGR2HSV)` step of
`_reduce_brightness`; `scaleValue` clips-and-scales the V channel by the
given factor and converts back to BGR; `optimizeFrame` is the
CLAHE(clip 2.0) body of `_optimize_frame`; `watermarkDraw` is the
rectangle/text drawing of `add_mansio_watermark` (its layout arithmetic
is modelled separately above). -/
structure VideoOps (Frame : Type) where
  labStats : Frame → Except String (ℚ × ℚ × ℚ)
  enhanceDark : Frame → Except String Frame
  toHSV : Frame → Except String Frame
  scaleValue : Frame → ℚ → Except String Frame
  optimizeFrame : Frame → Except String Frame
  watermarkDraw : Frame → Except String Frame

/-- `VideoProcessor.analyze_frame`. -/
def analyze_frame {Frame : Type} (ops : VideoOps Frame) (frame : Frame)
    (frame_number : ℕ) : Except String FrameMetrics := do
  let s ← ops.labStats frame
  Except.ok ⟨s.1, s.2.1, s.2.2, frame_number⟩

/-- `VideoProcessor._reduce_brightness`: convert to HSV, compute
`TARGET_BRIGHTNESS / current_brightness`, smooth it through
`_get_smoothed_adjustment` (threading `previous_adjustments`), scale the
V channel by the smoothed factor and convert back. -/
def reduce_brightness_video {Frame : Type} (ops : VideoOps Frame)
    (st : List ℚ) (frame : Frame) (current_brightness : ℚ) :
    Except String (Frame × List ℚ) := do
  let hsv ← ops.toHSV frame
  let r := get_smoothed_adjustment st (video_reduction_factor current_brightness)
  let adjusted ← ops.scaleValue hsv r.1
  Except.ok (adjusted, r.2)

/-- One iteration of the `while True` body of
`VideoProcessor.process_video`: analyze the frame, route it by
`mean_brightness` against thresholds 80/200, apply the selected
correction, then watermark.  There is no per-frame exception handler in
the source: any failure propagates out of the loop. -/
def process_frame {Frame : Type} (ops : VideoOps Frame) (st : List ℚ)
    (frame : Frame) (n : ℕ) : Except String (Frame × List ℚ) := do
  let metrics ← analyze_frame ops frame n
  let r ←
    match selectStrategy 80 200 metrics.mean_brightness with
    | Strategy.dark => do
        let p ← ops.enhanceDark frame
        Except.ok (p, st)
    | Strategy.bright =>
        reduce_brightness_video ops st frame metrics.mean_brightness
    | Strategy.optimize => do
        let p ← ops.optimizeFrame frame
        Except.ok (p, st)
  let w ← ops.watermarkDraw r.1
  Except.ok (w, r.2)

/-- The frame loop of `VideoProcessor.process_video`: processes frames in
order, writing each result to the sink as it goes; returns the frames
written, the final smoothing state, and the first error if one was
raised (frames written before the error stay written). -/
def process_loop {Frame : Type} (ops : VideoOps Frame) :
    List Frame → List ℚ → ℕ → List Frame × List ℚ × Option String
  | [], st, _ => ([], st, none)
  | f :: fs, st, n =>
    match process_frame ops st f n with
    | Except.error e => ([], st, some e)
    | Except.ok r =>
      let rest := process_loop ops fs r.2 (n + 1)
      (r.1 :: rest.1, rest.2.1, rest.2.2)

/-- `VideoProcessor.process_video`: `None` models a capture that failed
to open; on success the job reports the processed frame count, and any
exception is caught at the job boundary and turned into a
`(False, message)` result. `previous_adjustments` is reset to `[]` at the
start of the job. -/
def process_video {Frame : Type} (ops : VideoOps Frame)
    (cap : Option (List Frame)) : Bool × String × List Frame :=
  match cap with
  | none => (false, "Failed to open video file", [])
  | some frames =>
    let r := process_loop ops frames [] 0
    match r.2.2 with
    | none =>
      (true, "Video processed successfully. Processed " ++ toString r.1.length
        ++ " frames.", r.1)
    | some e => (false, e, r.1)

/-- Metrics of `ImageProcessor.analyze_image` (no frame number). -/
structure ImageMetrics where
  mean_brightness : ℚ
  contrast : ℚ
  histogram_spread : ℚ
deriving DecidableEq, Repr

/-- The external cv2/numpy operations `ImageProcessor` invokes.
`hsvValueMean` is `cvtColor(BGR2HSV)` plus `np.mean(hsv[:, :, 2])` —
the `current_brightness` recomputed inside `_reduce_brightness`;
`imwrite` is `cv2.imwrite`. -/
structure ImageOps (Frame : Type) where
  labStats : Frame → Except String (ℚ × ℚ × ℚ)
  enhanceDark : Frame → Except String Frame
  hsvValueMean : Frame → Except String ℚ
  scaleValue : Frame → ℚ → Except String Frame
  optimizeImage : Frame → Except String Frame
  imwrite : Frame → Except String Unit

/-- `ImageProcessor.analyze_image`. -/
def analyze_image {Frame : Type} (ops : ImageOps Frame) (img : Frame) :
    Except String ImageMetrics := do
  let s ← ops.labStats img
  Except.ok ⟨s.1, s.2.1, s.2.2⟩

/-- `ImageProcessor._reduce_brightness`: recomputes `current_brightness`
as the HSV value-channel mean and divides by it with no zero guard. -/
def reduce_brightness_image {Frame : Type} (ops : ImageOps Frame)
    (img : Frame) : Except String Frame := do
  let current ← ops.hsvValueMean img
  ops.scaleValue img (image_reduction_factor current)

/-- `ImageProcessor.adjust_brightness`: `None` models `cv2.imread`
returning no image; otherwise the frame is analyzed, routed by
`mean_brightness` against thresholds 80/130, corrected, re-analyzed and
written; any exception is caught at the job boundary. -/
def adjust_brightness {Frame : Type} (ops : ImageOps Frame)
    (img : Option Frame) : Bool × String :=
  match img with
  | none => (false, "Failed to read image")
  | some i =>
    let r : Except String Frame := do
      let metrics ← analyze_image ops i
      let processed ←
        match selectStrategy 80 130 metrics.mean_brightness with
        | Strategy.dark => ops.enhanceDark i
        | Strategy.bright => reduce_brightness_image ops i
        | Strategy.optimize => ops.optimizeImage i
      let _ ← analyze_image ops processed
      let _ ← ops.imwrite processed
      Except.ok processed
    match r with
    | Except.ok _ => (true, "Image processed successfully")
    | Except.error e => (false, e)

/-- `VideoStitcher.TRANSITION_FRAMES`. -/
def TRANSITION_FRAMES : ℕ := 30

/-- The external cv2 operations `VideoStitcher` invokes.
`resizeFrame` is `resize_frame` (cv2.resize + copyMakeBorder to the
target size); `blend frame1 frame2 i num` is
`cv2.addWeighted(frame1, 1 - i/num, frame2, i/num, 0)`;
`watermarkDraw` is the drawing part of `add_mansio_watermark`. -/
structure StitchOps (Frame : Type) where
  resizeFrame : Frame → Except String Frame
  blend : Frame → Frame → ℕ → ℕ → Frame
  watermarkDraw : Frame → Except String Frame

/-- `VideoStitcher.create_fade_transition`: `num_frames` blended frames
at `alpha = i / num_frames` for `i = 0 … num_frames - 1`. -/
def create_fade_transition {Frame : Type}
    (blend : Frame → Frame → ℕ → ℕ → Frame) (frame1 frame2 : Frame)
    (num_frames : ℕ) : List Frame :=
  (List.range num_frames).map (fun i => blend frame1 frame2 i num_frames)

/-- The inner `while True` loop of `VideoStitcher.process_videos` over
one video's frames: resize, insert a watermarked fade transition before
the first frame when a previous video left a `last_frame`, watermark and
write each frame, and track `last_frame` and `frame_count`. -/
def stitch_frames {Frame : Type} (ops : StitchOps Frame) :
    List Frame → Option Frame → ℕ → Except String (List Frame × Option Frame)
  | [], last, _ => Except.ok ([], last)
  | f :: fs, last, count => do
    let rf ← ops.resizeFrame f
    let trans ←
      match last, count with
      | some lf, 0 =>
        (create_fade_transition ops.blend lf rf TRANSITION_FRAMES).mapM
          ops.watermarkDraw
      | _, _ => Except.ok []
    let wf ← ops.watermarkDraw rf
    let rest ← stitch_frames ops fs (some rf) (count + 1)
    Except.ok (trans ++ wf :: rest.1, rest.2)

/-- The outer loop of `VideoStitcher.process_videos` over the video list:
a capture that fails to open (`none`) is logged and skipped
(`continue`); an opened video's frames are stitched with `last_frame`
carried across videos. -/
def stitch_loop {Frame : Type} (ops : StitchOps Frame) :
    List (Option (List Frame)) → Option Frame → Except String (List Frame)
  | [], _ => Except.ok []
  | none :: rest, last => stitch_loop ops rest last
  | some frames :: rest, last => do
    let r ← stitch_frames ops frames last 0
    let tail ← stitch_loop ops rest r.2
    Except.ok (r.1 ++ tail)

/-- `VideoStitcher.process_videos`: empty input list is rejected; an
exception anywhere is caught at the job boundary; on success the message
is the fixed string below (the frames written before a failure stay in
the output file but are not modelled here). -/
def process_videos {Frame : Type} (ops : StitchOps Frame)
    (caps : List (Option (List Frame))) : Bool × String × List Frame :=
  if caps.isEmpty then (false, "No video paths provided", [])
  else
    match stitch_loop ops caps none with
    | Except.ok outs =>
      (true, "Videos stitched successfully with Mansio watermark", outs)
    | Except.error e => (false, e, [])

/-- Modelled from the spec: `ChunkedPipelineExecutor` (§4.5) has no
implementation in `src/` — the source pipeline `process_video` is
strictly sequential — so chunk partitioning is modelled from the spec's
words: the ordered frame sequence is split into contiguous chunks of
`chunkSize` (the final remainder chunk may be shorter but is still
processed).  `fuel` is an upper bound on the recursion depth, always
instantiated with the list length. -/
def chunkListF {α : Type} (chunkSize : ℕ) : ℕ → List α → List (List α)
  | 0, _ => []
  | _, [] => []
  | fuel + 1, x :: xs =>
    (x :: xs.take (chunkSize - 1)) ::
      chunkListF chunkSize fuel (xs.drop (chunkSize - 1))

/-- Modelled from the spec: chunk partition of a frame sequence. -/
def chunkList {α : Type} (chunkSize : ℕ) (l : List α) : List (List α) :=
  chunkListF chunkSize l.length l

/-- Modelled from the spec: `ChunkedPipelineExecutor.run` — chunks are
dispatched to a pool of at most `workerCount` workers for independent
per-frame processing, and results are reassembled strictly in original
chunk and intra-chunk order, so worker completion order never affects
the output; `workerCount` bounds parallelism only. -/
def chunkedRun {α β : Type} (_workerCount chunkSize : ℕ) (process : α → β)
    (frames : List α) : List β :=
  ((chunkList chunkSize frames).map (List.map process)).flatten

lemma chunkListF_join {α : Type} (chunkSize : ℕ) :
    ∀ (fuel : ℕ) (l : List α), l.length ≤ fuel →
      (chunkListF chunkSize fuel l).flatten = l := by
  intro fuel
  induction fuel with
  | zero =>
    intro l hl
    match l with
    | [] => simp [chunkListF]
    | x :: xs => simp at hl
  | succ k ih =>
    intro l hl
    match l with
    | [] => simp [chunkListF]
    | x :: xs =>
      simp only [chunkListF, List.flatten_cons]
      rw [ih (xs.drop (chunkSize - 1))
        (by simp only [List.length_drop]; simp at hl; omega)]
      simp [List.take_append_drop]

lemma chunkList_join {α : Type} (chunkSize : ℕ) (l : List α) :
    (chunkList chunkSize l).flatten = l :=
  chunkListF_join chunkSize l.length l le_rfl

lemma chunkedRun_eq_map {α β : Type} (workerCount chunkSize : ℕ)
    (process : α → β) (frames : List α) :
    chunkedRun workerCount chunkSize process frames = frames.map process := by
  unfold chunkedRun
  rw [← List.map_flatten, chunkList_join]

lemma process_loop_length_of_ok {Frame : Type} (ops : VideoOps Frame) :
    ∀ (frames : List Frame) (st : List ℚ) (n : ℕ),
      (process_loop ops frames st n).2.2 = none →
      (process_loop ops frames st n).1.length = frames.length := by
  intro frames
  induction frames with
  | nil => intro st n _; simp [process_loop]
  | cons f fs ih =>
    intro st n h
    cases hpf : process_frame ops st f n with
    | error e => simp [process_loop, hpf] at h
    | ok r =>
      simp only [process_loop, hpf] at h ⊢
      simp only [List.length_cons]
      rw [ih r.2 (n + 1) h]

lemma process_loop_length_of_error {Frame : Type} (ops : VideoOps Frame) :
    ∀ (frames : List Frame) (st : List ℚ) (n : ℕ) (e : String),
      (process_loop ops frames st n).2.2 = some e →
      (process_loop ops frames st n).1.length < frames.length := by
  intro frames
  induction frames with
  | nil => intro st n e h; simp [process_loop] at h
  | cons f fs ih =>
    intro st n e h
    cases hpf : process_frame ops st f n with
    | error e2 =>
      simp only [process_loop, hpf, List.length_nil, List.length_cons]
      omega
    | ok r =>
      simp only [process_loop, hpf] at h ⊢
      simp only [List.length_cons]
      have := ih r.2 (n + 1) e h
      omega

lemma process_loop_append {Frame : Type} (ops : VideoOps Frame) :
    ∀ (fr1 fr2 : List Frame) (st : List ℚ) (n : ℕ),
      (process_loop ops fr1 st n).2.2 = none →
      process_loop ops (fr1 ++ fr2) st n =
        ((process_loop ops fr1 st n).1 ++
          (process_loop ops fr2 (process_loop ops fr1 st n).2.1
            (n + fr1.length)).1,
         (process_loop ops fr2 (process_loop ops fr1 st n).2.1
            (n + fr1.length)).2) := by
  intro fr1
  induction fr1 with
  | nil => intro fr2 st n _; simp [process_loop]
  | cons f fs ih =>
    intro fr2 st n h
    cases hpf : process_frame ops st f n with
    | error e => simp [process_loop, hpf] at h
    | ok r =>
      simp only [List.cons_append, process_loop, hpf] at h ⊢
      simp only [List.append_eq]
      rw [ih fr2 r.2 (n + 1) h]
      simp only [List.length_cons]
      have harith : n + 1 + fs.length = n + (fs.length + 1) := by omega
      rw [harith]

/-- A concrete instantiation of the video external operations on token
frames (`Frame := ℕ`) in which every cv2 call succeeds; the token value
doubles as the frame's LAB mean brightness. -/
def opsOk : VideoOps ℕ :=
  { labStats := fun f => Except.ok ((f : ℚ), 0, 0)
    enhanceDark := fun f => Except.ok (f + 100)
    toHSV := fun f => Except.ok f
    scaleValue := fun f _ => Except.ok f
    optimizeFrame := fun f => Except.ok (f + 200)
    watermarkDraw := fun f => Except.ok (f + 1000) }

/-- C1: for any worker count ≥ 1 and chunk size ≥ 1, the chunked
executor's reassembled output is the per-frame image of the input —
exactly one output per input, in input order, with equal length — and
the sequential frame loop of `process_video` likewise writes, when no
frame fails, exactly one frame per input and consumes its input
prefix-by-prefix in order. -/
theorem pipeline_preserves_order_and_length {Frame : Type}
    (workerCount chunkSize : ℕ) (process : Frame → Frame)
    (frames fr1 fr2 : List Frame) (ops : VideoOps Frame) (st : List ℚ)
    (n : ℕ) (_hwc : 1 ≤ workerCount) (_hcs : 1 ≤ chunkSize) :
    chunkedRun workerCount chunkSize process frames = frames.map process ∧
    (chunkedRun workerCount chunkSize process frames).length = frames.length ∧
    (∀ i : ℕ, (chunkedRun workerCount chunkSize process frames)[i]? =
      (frames[i]?).map process) ∧
    ((process_loop ops frames st n).2.2 = none →
      (process_loop ops frames st n).1.length = frames.length) ∧
    ((process_loop ops fr1 st n).2.2 = none →
      (process_loop ops (fr1 ++ fr2) st n).1 =
        (process_loop ops fr1 st n).1 ++
          (process_loop ops fr2 (process_loop ops fr1 st n).2.1
            (n + fr1.length)).1) := by
  refine ⟨chunkedRun_eq_map workerCount chunkSize process frames, ?_, ?_, ?_, ?_⟩
  · rw [chunkedRun_eq_map]; exact List.length_map frames process
  · intro i
    rw [chunkedRun_eq_map]
    exact List.getElem?_map process frames i
  · exact process_loop_length_of_ok ops frames st n
  · intro h
    rw [process_loop_append ops fr1 fr2 st n h]

theorem pipeline_preserves_order_and_length_witness :
    chunkedRun 4 30 (fun x => x + 1) [10, 20, 30] =
      [10, 20, 30].map (fun x : ℕ => x + 1) ∧
    (chunkedRun 4 30 (fun x : ℕ => x + 1) [10, 20, 30]).length = 3 :=
  ⟨(pipeline_preserves_order_and_length 4 30 (fun x => x + 1) [10, 20, 30]
      [] [] opsOk [] 0 (by decide) (by decide)).1,
   ((pipeline_preserves_order_and_length 4 30 (fun x => x + 1) [10, 20, 30]
      [] [] opsOk [] 0 (by decide) (by decide)).2.1).trans (by decide)⟩

/-- Like `opsOk` but the colour-space conversion of `analyze_frame`
raises on frame token 1, modelling a cv2 failure on a single frame. -/
def opsFailAt1 : VideoOps ℕ :=
  { labStats := fun f =>
      if f = 1 then Except.error "cvtColor failed" else Except.ok (100, 0, 0)
    enhanceDark := fun f => Except.ok (f + 100)
    toHSV := fun f => Except.ok f
    scaleValue := fun f _ => Except.ok f
    optimizeFrame := fun f => Except.ok (f + 200)
    watermarkDraw := fun f => Except.ok (f + 1000) }

/-- C2 counterexample: a conversion failure on the second of three frames
makes the whole job fail — `process_video` returns success `false` with
the frame-level error as the job message, only the one frame processed
before the failure is written, and the original second frame is not
substituted (the job does not continue, let alone complete
successfully). -/
theorem per_frame_failure_aborts_job_cx :
    (process_video opsFailAt1 (some [0, 1, 2])).1 = false ∧
    (process_video opsFailAt1 (some [0, 1, 2])).2.1 = "cvtColor failed" ∧
    (process_video opsFailAt1 (some [0, 1, 2])).2.2.length = 1 := by
  refine ⟨by decide, by decide, by decide⟩

/-- C2 amended: there is no per-frame exception handler in
`process_video`; a conversion or filter failure while correcting or
watermarking any single frame propagates to the job-level handler, which
aborts the job with a failure flag carrying that frame's error message,
and strictly fewer output frames than input frames are written — the
failing frame is never substituted by the original. -/
theorem per_frame_failure_aborts_job {Frame : Type} (ops : VideoOps Frame)
    (frames : List Frame) (e : String)
    (h : (process_loop ops frames [] 0).2.2 = some e) :
    (process_video ops (some frames)).1 = false ∧
    (process_video ops (some frames)).2.1 = e ∧
    (process_video ops (some frames)).2.2.length < frames.length := by
  have hlt := process_loop_length_of_error ops frames [] 0 e h
  simp only [process_video, h]
  exact ⟨trivial, trivial, hlt⟩

theorem per_frame_failure_aborts_job_witness :
    (process_video opsFailAt1 (some [0, 1, 2])).2.2.length < 3 :=
  (per_frame_failure_aborts_job opsFailAt1 [0, 1, 2] "cvtColor failed"
    (by decide)).2.2

/-- An image-operations instantiation on `Frame := ℚ` that routes the
frame to the bright strategy (LAB mean 150 > 130) while the HSV
value-channel mean recomputed inside `_reduce_brightness` is 0, and
whose `scaleValue` returns the factor it was given, making the computed
reduction factor observable. -/
def opsProbe : ImageOps ℚ :=
  { labStats := fun _ => Except.ok (150, 0, 0)
    enhanceDark := fun f => Except.ok f
    hsvValueMean := fun _ => Except.ok 0
    scaleValue := fun _ factor => Except.ok factor
    optimizeImage := fun f => Except.ok f
    imwrite := fun _ => Except.ok () }

/-- C3 counterexample: the factor computation of `_reduce_brightness`
has no zero-denominator guard.  On a frame routed to the bright strategy
whose recomputed `current_brightness` is 0, the code still computes
`127 / 0` (the junk value 0 in this ℚ embedding; `inf` under numpy): it
neither floors the denominator at 1 (which would give 127) nor reroutes
the frame to the dark strategy. -/
theorem brightness_factor_unguarded_cx :
    reduce_brightness_image opsProbe 37 = Except.ok (image_reduction_factor 0) ∧
    image_reduction_factor 0 = 0 ∧
    spec_guarded_factor 0 = 127 ∧
    image_reduction_factor 0 ≠ spec_guarded_factor 0 ∧
    selectStrategy 80 130 150 = Strategy.bright := by
  refine ⟨rfl, ?_, ?_, ?_, by decide⟩
  · simp [image_reduction_factor]
  · norm_num [spec_guarded_factor]
  · simp [image_reduction_factor, spec_guarded_factor]

/-- C3 amended: neither `_reduce_brightness` guards its denominator; what
prevents a division fault in the video pipeline is the routing itself — a
frame reaches the bright strategy only when `mean_brightness > 200`, and
that same `mean_brightness` is the denominator of
`video_reduction_factor`, so the denominator is positive whenever the
video factor computation runs.  (In the image pipeline the denominator is
the separately recomputed HSV value mean, and the division proceeds
unguarded.) -/
theorem bright_strategy_denominator_positive (mb : ℚ)
    (h : selectStrategy 80 200 mb = Strategy.bright) :
    200 < mb ∧ mb ≠ 0 ∧ video_reduction_factor mb = 127 / mb := by
  unfold selectStrategy at h
  split_ifs at h with h1 h2
  all_goals first
    | exact absurd h (by decide)
    | exact ⟨h2, by intro h0; rw [h0] at h2; norm_num at h2, rfl⟩

theorem bright_strategy_denominator_positive_witness :
    (200 : ℚ) < 220 ∧ (220 : ℚ) ≠ 0 ∧ video_reduction_factor 220 = 127 / 220 :=
  bright_strategy_denominator_positive 220 (by decide)

/-- A concrete instantiation of the image external operations on token
frames in which every cv2 call succeeds. -/
def iopsOk : ImageOps ℕ :=
  { labStats := fun f => Except.ok ((f : ℚ), 0, 0)
    enhanceDark := fun f => Except.ok (f + 100)
    hsvValueMean := fun f => Except.ok ((f : ℚ))
    scaleValue := fun f _ => Except.ok f
    optimizeImage := fun f => Except.ok (f + 200)
    imwrite := fun _ => Except.ok () }

/-- A concrete instantiation of the stitcher external operations on token
frames in which every cv2 call succeeds. -/
def sopsOk : StitchOps ℕ :=
  { resizeFrame := fun f => Except.ok f
    blend := fun f1 _ _ _ => f1
    watermarkDraw := fun f => Except.ok f }

/-- C7 counterexample: two successful stitching jobs that process
different numbers of frames (1 versus 2) return the very same success
message, so the stitching success result does not include a count of
frames processed — the message is one fixed string. -/
theorem stitch_message_lacks_count_cx :
    (process_videos sopsOk [some [10]]).1 = true ∧
    (process_videos sopsOk [some [10, 11]]).1 = true ∧
    (process_videos sopsOk [some [10]]).2.1 =
      (process_videos sopsOk [some [10, 11]]).2.1 ∧
    (process_videos sopsOk [some [10]]).2.2.length = 1 ∧
    (process_videos sopsOk [some [10, 11]]).2.2.length = 2 := by
  refine ⟨by decide, by decide, by decide, by decide, by decide⟩

/-- C7 amended: every top-level operation returns a success flag plus a
message, with every failure path converted to a `(false, message)` pair
at the job boundary (the functions are total); the video-enhancement
success message includes the count of frames processed, but the
video-stitching success message is the fixed string
"Videos stitched successfully with Mansio watermark" without a count. -/
theorem job_boundary_result_contract {Frame : Type} (iops : ImageOps Frame)
    (img : Option Frame) (vops : VideoOps Frame) (cap : Option (List Frame))
    (sops : StitchOps Frame) (caps : List (Option (List Frame)))
    (hs : (process_videos sops caps).1 = true) :
    (adjust_brightness iops img = (true, "Image processed successfully") ∨
      ∃ m, adjust_brightness iops img = (false, m)) ∧
    ((∃ outs : List Frame, process_video vops cap =
        (true, "Video processed successfully. Processed " ++
          toString outs.length ++ " frames.", outs)) ∨
      ∃ m outs, process_video vops cap = (false, m, outs)) ∧
    (process_videos sops caps).2.1 =
      "Videos stitched successfully with Mansio watermark" := by
  refine ⟨?_, ?_, ?_⟩
  · match img with
    | none => exact Or.inr ⟨"Failed to read image", rfl⟩
    | some i =>
      simp only [adjust_brightness]
      match (do
        let metrics ← analyze_image iops i
        let processed ←
          match selectStrategy 80 130 metrics.mean_brightness with
          | Strategy.dark => iops.enhanceDark i
          | Strategy.bright => reduce_brightness_image iops i
          | Strategy.optimize => iops.optimizeImage i
        let _ ← analyze_image iops processed
        let _ ← iops.imwrite processed
        Except.ok processed : Except String Frame) with
      | Except.ok p => exact Or.inl rfl
      | Except.error e => exact Or.inr ⟨e, rfl⟩
  · match cap with
    | none => exact Or.inr ⟨"Failed to open video file", [], rfl⟩
    | some frames =>
      simp only [process_video]
      match hres : (process_loop vops frames [] 0).2.2 with
      | none => exact Or.inl ⟨(process_loop vops frames [] 0).1, rfl⟩
      | some e => exact Or.inr ⟨e, (process_loop vops frames [] 0).1, rfl⟩
  · by_cases hemp : caps.isEmpty
    · rw [process_videos, if_pos hemp] at hs
      simp at hs
    · rw [process_videos, if_neg hemp] at hs ⊢
      match hres : stitch_loop sops caps none with
      | Except.ok outs => rfl
      | Except.error e => rw [hres] at hs; simp at hs

theorem job_boundary_result_contract_witness :
    (process_videos sopsOk [some [7]]).2.1 =
      "Videos stitched successfully with Mansio watermark" :=
  (job_boundary_result_contract iopsOk (some 7) opsOk (some [7]) sopsOk
    [some [7]] (by decide)).2.2

/-- C8 counterexample: a stitching job whose only video cannot be opened
does not fail — the unopenable capture is skipped (`continue`) and the
job returns success with the fixed success message. -/
theorem stitch_does_not_fail_on_unopenable_cx :
    (process_videos sopsOk [none]).1 = true ∧
    (process_videos sopsOk [none]).2.1 =
      "Videos stitched successfully with Mansio watermark" := by
  refine ⟨by decide, by decide⟩

/-- C8 amended: when the input cannot be opened or decoded the image job
and the video-enhancement job fail immediately with a descriptive
message and produce no output frames; the stitching job instead logs and
skips any unopenable video and continues with the remaining ones — a
list with an unopenable entry can still succeed. -/
theorem source_open_failure_handling {Frame : Type} (iops : ImageOps Frame)
    (vops : VideoOps Frame) (sops : StitchOps Frame)
    (rest : List (Option (List Frame))) (last : Option Frame) :
    adjust_brightness iops none = (false, "Failed to read image") ∧
    process_video vops none = (false, "Failed to open video file", []) ∧
    stitch_loop sops (none :: rest) last = stitch_loop sops rest last ∧
    (process_videos sopsOk [none, some [3]]).1 = true ∧
    (process_videos sopsOk [none, some [3]]).2.2.length = 1 := by
  refine ⟨rfl, rfl, rfl, by decide, by decide⟩
